import Mathlib

/-!
Verification of the Multiple Reader Ring Buffer (MRRB) implementation
(`Middlewares/Third_Party/MRRB/mrrb.c`, v0.2) against its specification.

The C code is shallowly embedded: buffer pointers become `Nat` offsets into
the buffer (the C code compares and subtracts raw pointers into one array,
which corresponds exactly to offset arithmetic), the byte buffer becomes a
`List Nat`, reader/MRRB structs become Lean structures, and the fallible
lock/unlock port calls become explicit `Bool` outcomes passed to each
operation.  User callbacks (`notify_data`, `abort_data`) are modelled as
emitted events carrying the exact arguments the C code passes, since the
callbacks themselves are external to the core.
-/

/-- Reader states, from the `mrrb_reader_status_t` enum in `mrrb.h`. -/
inductive ReaderStatus where
  | disabled
  | idle
  | active
  | aborting
  | aborted
  | disabling
deriving DecidableEq, Repr

/-- Overrun policies, from the `mrrb_reader_overrun_policy_t` enum in `mrrb.h`. -/
inductive OverrunPolicy where
  | disable
  | blocking
  | skip
deriving DecidableEq, Repr

/-- One `ring_buffer_reader_t`.  `handle` is the opaque user handle
(`none` stands for a C `NULL` handle); `has_abort` records whether
`abort_data` is a non-NULL function pointer; the two cursors are offsets
into the shared buffer. -/
structure Reader where
  handle : Option Nat
  overrun_policy : OverrunPolicy
  has_abort : Bool
  status : ReaderStatus
  read_ptr : Nat
  read_complete_ptr : Nat
  is_full : Bool
deriving DecidableEq, Repr

/-- One `multi_reader_ring_buffer_t`.  `buffer` holds the byte contents,
`buffer_length` is `N`, and `write_ptr`/`reservation_ptr` are offsets. -/
structure Mrrb where
  buffer_length : Nat
  buffer : List Nat
  readers : List Reader
  write_ptr : Nat
  reservation_ptr : Nat
  ongoing_writes : Nat
deriving DecidableEq, Repr

/-- Callback invocations made by the MRRB, in order.  `notify i off len bytes`
records a `notify_data` call to reader `i` with buffer offset `off`, length
`len` and the pointed-to bytes; `abort i` records an `abort_data` call. -/
inductive Evt where
  | abort (i : Nat)
  | notify (i : Nat) (off : Nat) (len : Nat) (bytes : List Nat)
deriving DecidableEq, Repr

/-- `_mrrb_advance_pointer`: advance offset `ptr` by `len` modulo the buffer,
exactly as the C code computes it
(`if (ptr - buffer < buffer_length - len) return ptr + len; else return ptr - (buffer_length - len)`). -/
def mrrb_advance_pointer (N ptr len : Nat) : Nat :=
  if ptr < N - len then ptr + len else ptr - (N - len)

/-- `_mrrb_reader_get_continuous_readable_space`: the contiguous readable
span for a reader, given the buffer length and the current `write_ptr`. -/
def mrrb_reader_get_continuous_readable_space (N wp : Nat) (r : Reader) : Nat :=
  if r.read_complete_ptr > wp ∨ r.is_full then N - r.read_complete_ptr
  else wp - r.read_complete_ptr

/-- `_mrrb_reader_get_remaining_space`: the space one reader leaves for
writers, given the buffer length and the current `reservation_ptr`. -/
def mrrb_reader_get_remaining_space (N res : Nat) (r : Reader) : Nat :=
  if r.status = .disabled ∨ r.status = .disabling then N
  else if r.is_full then 0
  else if r.read_complete_ptr > res then r.read_complete_ptr - res
  else N - (res - r.read_complete_ptr)

/-- `_mrrb_reader_get_overwritable_space`. -/
def mrrb_reader_get_overwritable_space (N res : Nat) (r : Reader) : Nat :=
  if r.overrun_policy = .blocking then mrrb_reader_get_remaining_space N res r
  else N

/-- `mrrb_get_remaining_space`: fold of the per-reader spaces, starting from
`buffer_length` and keeping the minimum, exactly like the C loop. -/
def mrrb_get_remaining_space (m : Mrrb) : Nat :=
  m.readers.foldl
    (fun acc r =>
      let s := mrrb_reader_get_remaining_space m.buffer_length m.reservation_ptr r
      if s < acc then s else acc)
    m.buffer_length

/-- `mrrb_get_overwritable_space`. -/
def mrrb_get_overwritable_space (m : Mrrb) : Nat :=
  m.readers.foldl
    (fun acc r =>
      let s := mrrb_reader_get_overwritable_space m.buffer_length m.reservation_ptr r
      if s < acc then s else acc)
    m.buffer_length

/-- `mrrb_is_empty` (for a non-NULL mrrb): `1` iff the remaining space is the
whole buffer. -/
def mrrb_is_empty (m : Mrrb) : Bool :=
  mrrb_get_remaining_space m == m.buffer_length

/-- `mrrb_is_full` (for a non-NULL mrrb): the C loop returns 1 on the first
reader with `status == MRRB_READER_STATUS_ACTIVE && is_full`. -/
def mrrb_is_full (m : Mrrb) : Bool :=
  m.readers.any (fun r => r.status == .active && r.is_full)

/-- `_mrrb_get_reader_by_handle`: index of the first reader whose handle
equals the given one (the C loop breaks at the first match). -/
def mrrb_get_reader_by_handle (m : Mrrb) (h : Option Nat) : Option Nat :=
  m.readers.findIdx? (fun r => r.handle == h)

/-- The body of the `_mrrb_clear_overrun_space` loop for one reader.
Returns the transformed reader, whether its abort flag was raised, and the
`reader_clear_space` value that the loop folds into `clear_space`
(skipped readers contribute the neutral `N`, mirroring the C `continue`
that bypasses the minimum update). -/
def mrrb_clear_reader (N res requested : Nat) (r : Reader) : Reader × Bool × Nat :=
  if r.status = .disabled ∨ r.status = .disabling ∨ r.status = .idle then
    (r, false, N)
  else
    let space := mrrb_reader_get_remaining_space N res r
    if space < requested then
      match r.overrun_policy with
      | .blocking => (r, false, space)
      | .disable =>
        if r.has_abort then ({ r with status := .disabling }, true, N)
        else ({ r with status := .disabled }, false, N)
      | .skip =>
        let flag := r.status = .active
        let r1 := if r.status = .active then
            { r with status := .aborting, read_complete_ptr := r.read_ptr,
                     is_full := false }
          else r
        let space1 := mrrb_reader_get_remaining_space N res r1
        let (r2, space2) :=
          if space1 < requested then
            ({ r1 with read_complete_ptr :=
                 mrrb_advance_pointer N r1.read_complete_ptr (requested - space1) },
             requested)
          else (r1, space1)
        ({ r2 with is_full := space2 == requested }, flag, space2)
    else (r, false, space)

/-- `_mrrb_clear_overrun_space`: returns the cleared space, the transformed
reader array, and the per-reader abort flags.  Each loop iteration touches
only reader `i` and the running minimum, so the loop splits into a `map`
plus a fold of the minimum. -/
def mrrb_clear_overrun_space (m : Mrrb) (requested : Nat) :
    Nat × List Reader × List Bool :=
  let steps := m.readers.map
    (mrrb_clear_reader m.buffer_length m.reservation_ptr requested)
  (steps.foldl (fun acc s => if s.2.2 < acc then s.2.2 else acc) m.buffer_length,
   steps.map (·.1), steps.map (fun s => s.2.1))

/-- `memcpy` of `bs` into `buf` starting at offset `start` (no wrap inside
one call; `mrrb_write` issues two calls for a wrapping write). -/
def writeBytes (buf : List Nat) (start : Nat) (bs : List Nat) : List Nat :=
  buf.mapIdx (fun i b => if start ≤ i ∧ i < start + bs.length then bs.getD (i - start) 0 else b)

/-- The full-flag update loop of `mrrb_write`: every reader that is not
DISABLED/DISABLING gets `is_full := (reservation_ptr == read_complete_ptr)`
for the already-moved reservation pointer. -/
def writeFullFlags (res : Nat) (readers : List Reader) : List Reader :=
  readers.map (fun r =>
    if r.status = .disabled ∨ r.status = .disabling then r
    else { r with is_full := res == r.read_complete_ptr })

/-- One reader in the publish loop of `mrrb_write` (`wp` is the pre-publish
`write_ptr`): IDLE readers become ACTIVE with `read_complete_ptr := write_ptr`
and are flagged, ABORTED readers become ACTIVE and are flagged. -/
def writePublishReader (wp : Nat) (r : Reader) : Reader × Bool :=
  if r.status = .idle then
    ({ r with status := .active, read_complete_ptr := wp }, true)
  else if r.status = .aborted then
    ({ r with status := .active }, true)
  else (r, false)

/-- One reader in the notification loop of `mrrb_write` (`wp` is the new,
already-published `write_ptr`): a flagged reader has its continuous readable
span computed, its `read_ptr` advanced past it, and its notify callback
invoked with a pointer to `read_complete_ptr`. -/
def writeNotifyReader (N wp : Nat) (buf : List Nat) (i : Nat) (rf : Reader × Bool) :
    Reader × List Evt :=
  if rf.2 then
    let len := mrrb_reader_get_continuous_readable_space N wp rf.1
    ({ rf.1 with read_ptr := mrrb_advance_pointer N rf.1.read_complete_ptr len },
     [Evt.notify i rf.1.read_complete_ptr len ((buf.drop rf.1.read_complete_ptr).take len)])
  else (rf.1, [])

/-- Result of `mrrb_write`: the returned byte count (or -1), the new state,
and the callback invocations in order. -/
structure WriteResult where
  ret : Int
  m : Mrrb
  evts : List Evt
deriving DecidableEq, Repr

/-- `mrrb_write`, with the outcomes of the three fallible port calls made
explicit: `lk1` is the initial `_mrrb_lock`, `ulk1` the checked
`_mrrb_unlock` after the reservation phase, `lk2` the re-acquisition after
the copy phase (the remaining unlocks have their results ignored by the C
code).  NULL-pointer arguments are outside the model; a zero-length write
returns before any locking. -/
def mrrb_write (lk1 ulk1 lk2 : Bool) (m : Mrrb) (data : List Nat) : WriteResult :=
  if data.length = 0 then ⟨0, m, []⟩
  else if !lk1 then ⟨-1, m, []⟩
  else
    let N := m.buffer_length
    let remaining := mrrb_get_remaining_space m
    let step1 : Nat × List Reader × List Bool :=
      if data.length ≤ remaining then
        (data.length, m.readers, List.replicate m.readers.length false)
      else
        let overwritable := mrrb_get_overwritable_space m
        if overwritable > remaining then
          let requested := if data.length ≤ N then data.length else N
          let c := mrrb_clear_overrun_space m requested
          ((if data.length ≤ c.1 then data.length else c.1), c.2.1, c.2.2)
        else (remaining, m.readers, List.replicate m.readers.length false)
    let write_length := step1.1
    let readers0 := step1.2.1
    let flags0 := step1.2.2
    let cont := N - m.reservation_ptr
    let wp0 := m.reservation_ptr
    let move : Nat × Nat × Nat :=
      if write_length ≥ cont then (cont, write_length - cont, write_length - cont)
      else (write_length, 0, m.reservation_ptr + write_length)
    let cw := move.1
    let spill := move.2.1
    let res1 := move.2.2
    let m1 : Mrrb := { m with readers := writeFullFlags res1 readers0,
                              reservation_ptr := res1,
                              ongoing_writes := m.ongoing_writes + 1 }
    if !ulk1 then ⟨-1, m1, []⟩
    else
      let abortEvts := (List.range m1.readers.length).filterMap
        (fun i => if flags0.getD i false then some (Evt.abort i) else none)
      let buf2 := writeBytes (writeBytes m.buffer wp0 (data.take cw)) 0
        ((data.drop cw).take spill)
      let m2 : Mrrb := { m1 with buffer := buf2 }
      if !lk2 then ⟨-1, m2, abortEvts⟩
      else
        let m3 : Mrrb := { m2 with ongoing_writes := m2.ongoing_writes - 1 }
        if m3.ongoing_writes = 0 then
          let pubs := m3.readers.map (writePublishReader m3.write_ptr)
          let nr := pubs.enum.map (fun p => writeNotifyReader N res1 buf2 p.1 p.2)
          let m4 : Mrrb := { m3 with readers := nr.map Prod.fst, write_ptr := res1 }
          ⟨(write_length : Int), m4, abortEvts ++ (nr.map Prod.snd).flatten⟩
        else ⟨(write_length : Int), m3, abortEvts⟩

/-- `mrrb_read_complete`, with the `_mrrb_lock` outcome explicit.  A NULL
handle returns before the lookup; an unknown handle returns after it. -/
def mrrb_read_complete (lk : Bool) (m : Mrrb) (h : Option Nat) : Mrrb × List Evt :=
  if h = none then (m, [])
  else
    match mrrb_get_reader_by_handle m h with
    | none => (m, [])
    | some i =>
      if !lk then (m, [])
      else
        match m.readers[i]? with
        | none => (m, [])
        | some r =>
          if r.status = .active then
            let r1 := { r with is_full := false, read_complete_ptr := r.read_ptr }
            let len := mrrb_reader_get_continuous_readable_space
              m.buffer_length m.write_ptr r1
            if len > 0 then
              let r2 := { r1 with read_ptr :=
                mrrb_advance_pointer m.buffer_length r1.read_complete_ptr len }
              ({ m with readers := m.readers.set i r2 },
               [Evt.notify i r2.read_complete_ptr len
                 ((m.buffer.drop r2.read_complete_ptr).take len)])
            else
              ({ m with readers := m.readers.set i ({ r1 with status := .idle }) }, [])
          else (m, [])

/-- `mrrb_abort_complete`, with the `_mrrb_lock` outcome explicit. -/
def mrrb_abort_complete (lk : Bool) (m : Mrrb) (h : Option Nat) : Mrrb × List Evt :=
  if h = none then (m, [])
  else
    match mrrb_get_reader_by_handle m h with
    | none => (m, [])
    | some i =>
      if !lk then (m, [])
      else
        match m.readers[i]? with
        | none => (m, [])
        | some r =>
          if r.status = .disabling then
            ({ m with readers := m.readers.set i ({ r with status := .disabled }) }, [])
          else if r.status = .aborting then
            let len := mrrb_reader_get_continuous_readable_space
              m.buffer_length m.write_ptr r
            if len > 0 ∧ m.ongoing_writes = 0 then
              let r2 := { r with status := .active, read_ptr :=
                mrrb_advance_pointer m.buffer_length r.read_complete_ptr len }
              ({ m with readers := m.readers.set i r2 },
               [Evt.notify i r.read_complete_ptr len
                 ((m.buffer.drop r.read_complete_ptr).take len)])
            else
              ({ m with readers := m.readers.set i ({ r with status := .aborted }) }, [])
          else (m, [])

/-- `mrrb_reader_enable`, with the `_mrrb_lock` outcome explicit.  The C
function takes a reader pointer; here the reader is given by its index
(`none` lookup stands for a NULL reader pointer). -/
def mrrb_reader_enable (lk : Bool) (m : Mrrb) (i : Nat) : Int × Mrrb :=
  match m.readers[i]? with
  | none => (-1, m)
  | some r =>
    if !lk then (-1, m)
    else if r.status = .disabled ∨ r.status = .disabling then
      let r' : Reader :=
        { r with status := .idle, is_full := false,
                 read_ptr := m.reservation_ptr,
                 read_complete_ptr := m.reservation_ptr }
      (0, { m with readers := m.readers.set i r' })
    else (0, m)

/-- `mrrb_init`: fails (`none`, modelling the C `-1`) on an empty buffer or
an empty reader array; otherwise builds the MRRB state and resets every
supplied reader, whatever its previous fields were.  The non-NULL-pointer
checks have no counterpart in the embedding; the mutex initialisation is
compiled out in the mutex-free configuration. -/
def mrrb_init (buffer : List Nat) (readers : List Reader) : Option Mrrb :=
  if buffer.length = 0 ∨ readers.length = 0 then none
  else some
    { buffer_length := buffer.length,
      buffer := buffer,
      readers := readers.map (fun r =>
        { r with status := .idle, read_ptr := 0, read_complete_ptr := 0,
                 is_full := false }),
      write_ptr := 0,
      reservation_ptr := 0,
      ongoing_writes := 0 }

/-- A top-level MRRB call in a sequential execution (all port locks
succeed). -/
inductive Op where
  | write (data : List Nat)
  | rdComplete (h : Option Nat)
  | abComplete (h : Option Nat)
deriving DecidableEq, Repr

/-- Run one sequential top-level call, extending the accumulated event list
and the accumulated sum of `mrrb_write` return values. -/
def stepOp (acc : Mrrb × List Evt × Int) (op : Op) : Mrrb × List Evt × Int :=
  match op with
  | .write data =>
    let r := mrrb_write true true true acc.1 data
    (r.m, acc.2.1 ++ r.evts, acc.2.2 + r.ret)
  | .rdComplete h =>
    let r := mrrb_read_complete true acc.1 h
    (r.1, acc.2.1 ++ r.2, acc.2.2)
  | .abComplete h =>
    let r := mrrb_abort_complete true acc.1 h
    (r.1, acc.2.1 ++ r.2, acc.2.2)

/-- Run a sequence of sequential top-level calls from a state. -/
def runOps (m : Mrrb) (ops : List Op) : Mrrb × List Evt × Int :=
  ops.foldl stepOp (m, [], 0)

/-- Concatenation of the byte slices passed to reader `i`'s notify
callback, in invocation order. -/
def deliveredTo (i : Nat) (evts : List Evt) : List Nat :=
  (evts.filterMap (fun e =>
    match e with
    | .notify j _ _ bs => if j = i then some bs else none
    | .abort _ => none)).flatten

/-- Concatenation of the writer inputs of a call sequence (the full `data`
arguments, in call order). -/
def writerInput (ops : List Op) : List Nat :=
  (ops.filterMap (fun op =>
    match op with
    | .write d => some d
    | _ => none)).flatten

/-- Lengths of all notify invocations in an event list. -/
def notifyLens (evts : List Evt) : List Nat :=
  evts.filterMap (fun e =>
    match e with
    | .notify _ _ len _ => some len
    | .abort _ => none)

/-- Claim-side predicate for `is_full`: some enabled reader (status neither
DISABLED nor DISABLING) has its `is_full` flag set. -/
def enabledReaderFull (m : Mrrb) : Bool :=
  m.readers.any (fun r => !(r.status == .disabled || r.status == .disabling) && r.is_full)

/-- Claim-side forward modular distance from offset `a` to offset `b` in a
buffer of length `N`.  Coinciding offsets count as the full length `N`:
this is the reading under which the spec's empty/full disambiguation via
`is_full` is coherent (an empty reader contributes `N`, a full one `0`). -/
def fwdDist (N a b : Nat) : Nat :=
  if b = a then N else if b > a then b - a else N - (a - b)

/-- Claim-side per-reader space: `N` for DISABLED/DISABLING readers, `0`
for full readers, else the forward modular distance from `reservation_ptr`
to `read_complete_ptr`. -/
def claimReaderSpace (N res : Nat) (r : Reader) : Nat :=
  if r.status = .disabled ∨ r.status = .disabling then N
  else if r.is_full then 0
  else fwdDist N res r.read_complete_ptr

/-- The per-reader space computed by the code agrees with the claim-side
space at every input. -/
lemma reader_space_eq_claim (N res : Nat) (r : Reader) :
    mrrb_reader_get_remaining_space N res r = claimReaderSpace N res r := by
  unfold mrrb_reader_get_remaining_space claimReaderSpace fwdDist
  split_ifs <;> omega

/-- The folded running minimum is below its seed and below every element. -/
lemma foldlMin_le {α : Type} (f : α → Nat) (l : List α) (init : Nat) :
    (l.foldl (fun acc x => if f x < acc then f x else acc) init) ≤ init ∧
    ∀ x ∈ l, (l.foldl (fun acc x => if f x < acc then f x else acc) init) ≤ f x := by
  induction l generalizing init with
  | nil => simp
  | cons a t ih =>
    constructor
    · refine le_trans (ih (if f a < init then f a else init)).1 ?_
      split <;> omega
    · intro x hx
      rcases List.mem_cons.mp hx with rfl | hx
      · refine le_trans (ih (if f x < init then f x else init)).1 ?_
        split <;> omega
      · exact (ih _).2 x hx

/-- The folded running minimum is the seed or one of the elements. -/
lemma foldlMin_mem {α : Type} (f : α → Nat) (l : List α) (init : Nat) :
    (l.foldl (fun acc x => if f x < acc then f x else acc) init) = init ∨
    ∃ x ∈ l, (l.foldl (fun acc x => if f x < acc then f x else acc) init) = f x := by
  induction l generalizing init with
  | nil => simp
  | cons a t ih =>
    rcases ih (if f a < init then f a else init) with h | ⟨x, hx, h⟩
    · by_cases hfa : f a < init
      · right; exact ⟨a, List.mem_cons_self a t, by simp only [List.foldl_cons]; rw [h, if_pos hfa]⟩
      · left; simp only [List.foldl_cons] at h ⊢; rw [h, if_neg hfa]
    · right; exact ⟨x, List.mem_cons_of_mem a hx, h⟩

/-- Advancing an in-range offset keeps it in range, whatever the length. -/
lemma mrrb_advance_pointer_lt (N ptr len : Nat) (h : ptr < N) :
    mrrb_advance_pointer N ptr len < N := by
  unfold mrrb_advance_pointer; split <;> omega

/-- Advancing by `d` adds `d` to the forward distance, as long as the
distance stays within the buffer. -/
lemma fwdDist_advance (N res rcp d : Nat) (hres : res < N) (hrcp : rcp < N)
    (hd : 0 < d) (hsum : fwdDist N res rcp + d ≤ N) :
    fwdDist N res (mrrb_advance_pointer N rcp d) = fwdDist N res rcp + d := by
  unfold fwdDist mrrb_advance_pointer at *
  split_ifs at * <;> omega

/-- Advancing by `d ≤ N` from the reservation offset itself lands at
forward distance exactly `d`. -/
lemma fwdDist_advance_from_res (N res d : Nat) (hres : res < N)
    (hd : 0 < d) (hdN : d ≤ N) :
    fwdDist N res (mrrb_advance_pointer N res d) = d := by
  unfold fwdDist mrrb_advance_pointer
  split_ifs <;> omega

/-- Sample dirty reader used to witness that `mrrb_init` resets readers. -/
def rdrW : Reader :=
  { handle := some 1, overrun_policy := .blocking, has_abort := false,
    status := .active, read_ptr := 1, read_complete_ptr := 1, is_full := true }

/-- The reader of `rdrW` after the reset done by `mrrb_init`. -/
def rdrWreset : Reader :=
  { rdrW with status := .idle, read_ptr := 0,
              read_complete_ptr := 0, is_full := false }

/-- Expected result of `mrrb_init [5] [rdrW]`. -/
def mW : Mrrb :=
  { buffer_length := 1, buffer := [5], readers := [rdrWreset],
    write_ptr := 0, reservation_ptr := 0, ongoing_writes := 0 }

/-- C10: after a successful `mrrb_init`, `write_ptr` and `reservation_ptr`
are at the buffer start, `ongoing_writes` is 0, and every supplied reader
is reset to IDLE with both cursors at the buffer start and `is_full`
cleared — whatever the readers' previous state and cursors were (the
theorem quantifies over arbitrary incoming reader records). -/
theorem c10_init_resets_state (buffer : List Nat) (readers : List Reader) (m : Mrrb)
    (h : mrrb_init buffer readers = some m) :
    m.write_ptr = 0 ∧ m.reservation_ptr = 0 ∧ m.ongoing_writes = 0 ∧
    ∀ r ∈ m.readers, r.status = .idle ∧ r.read_ptr = 0 ∧
      r.read_complete_ptr = 0 ∧ r.is_full = false := by
  unfold mrrb_init at h
  split at h
  · exact absurd h (by simp)
  · injection h with h
    subst h
    refine ⟨rfl, rfl, rfl, ?_⟩
    intro r hr
    rcases List.mem_map.mp hr with ⟨r0, _, rfl⟩
    exact ⟨rfl, rfl, rfl, rfl⟩

/-- Witness for C10 at a concrete dirty reader. -/
theorem c10_init_resets_state_witness :
    mrrb_init [5] [rdrW] = some mW ∧
    (mW.write_ptr = 0 ∧ mW.reservation_ptr = 0 ∧ mW.ongoing_writes = 0 ∧
      ∀ r ∈ mW.readers, r.status = .idle ∧ r.read_ptr = 0 ∧
        r.read_complete_ptr = 0 ∧ r.is_full = false) :=
  ⟨by decide, c10_init_resets_state [5] [rdrW] mW (by decide)⟩

/-- C7 counterexample state: a single ABORTING reader with `is_full` set
(such states are reachable through the SKIP overrun path, which leaves a
reader ABORTING while a later full-flag update can set `is_full`). -/
def mC7 : Mrrb :=
  { buffer_length := 2, buffer := [0, 0],
    readers := [{ handle := some 1, overrun_policy := .skip, has_abort := true,
                  status := .aborting, read_ptr := 0, read_complete_ptr := 0,
                  is_full := true }],
    write_ptr := 0, reservation_ptr := 0, ongoing_writes := 0 }

/-- C7 as stated is false: `mrrb_is_full` returns 0 on a state that has an
enabled (non-DISABLED, non-DISABLING) reader with `is_full` set, because
the code tests `status == ACTIVE` rather than enabledness. -/
theorem c7_claim_counterexample :
    mrrb_is_full mC7 = false ∧ enabledReaderFull mC7 = true := by decide

/-- C7 amended: `mrrb_is_full` returns 1 iff some reader is ACTIVE with its
`is_full` flag set. -/
theorem c7_active_full_amended (m : Mrrb) :
    mrrb_is_full m = true ↔ ∃ r ∈ m.readers, r.status = .active ∧ r.is_full = true := by
  unfold mrrb_is_full
  rw [List.any_eq_true]
  constructor
  · rintro ⟨r, hr, hp⟩
    rw [Bool.and_eq_true, beq_iff_eq] at hp
    exact ⟨r, hr, hp.1, hp.2⟩
  · rintro ⟨r, hr, h1, h2⟩
    refine ⟨r, hr, ?_⟩
    rw [Bool.and_eq_true, beq_iff_eq]
    exact ⟨h1, h2⟩

/-- C9 counterexample reader: ACTIVE with `read_ptr` away from the
reservation offset. -/
def rC9 : Reader :=
  { handle := some 1, overrun_policy := .blocking, has_abort := false,
    status := .active, read_ptr := 1, read_complete_ptr := 0, is_full := false }

/-- C9 counterexample state. -/
def mC9 : Mrrb :=
  { buffer_length := 2, buffer := [0, 0], readers := [rC9],
    write_ptr := 0, reservation_ptr := 0, ongoing_writes := 0 }

/-- C9 as stated is false: `mrrb_reader_enable` on an ACTIVE reader returns
0 but leaves the reader untouched — its state stays ACTIVE (not IDLE) and
its `read_ptr` stays away from `reservation_ptr`, because the reseating
only happens for DISABLED/DISABLING readers. -/
theorem c9_claim_counterexample :
    (mrrb_reader_enable true mC9 0).1 = 0 ∧
    (mrrb_reader_enable true mC9 0).2.readers[0]? = some rC9 ∧
    rC9.status ≠ .idle ∧ rC9.read_ptr ≠ mC9.reservation_ptr := by decide

/-- C9 amended: when `mrrb_reader_enable` returns 0 *and the reader was
DISABLED or DISABLING*, the reader ends IDLE with both cursors on the
current `reservation_ptr` and `is_full` cleared; on an already-enabled
reader the call returns 0 without changing anything. -/
theorem c9_enable_reseats_disabled (m : Mrrb) (i : Nat) (r : Reader)
    (hr : m.readers[i]? = some r)
    (hst : r.status = .disabled ∨ r.status = .disabling) :
    (mrrb_reader_enable true m i).1 = 0 ∧
    (mrrb_reader_enable true m i).2.readers[i]? = some
      { r with status := .idle, is_full := false,
               read_ptr := m.reservation_ptr,
               read_complete_ptr := m.reservation_ptr } := by
  have hlt : i < m.readers.length := (List.getElem?_eq_some.mp hr).1
  unfold mrrb_reader_enable
  rw [hr]
  simp only [Bool.not_true, if_pos hst]
  refine ⟨rfl, ?_⟩
  simp [List.getElem?_set_self, hlt]

/-- Witness for C9 amended at a concrete DISABLED reader. -/
def rC9w : Reader :=
  { handle := some 1, overrun_policy := .blocking, has_abort := false,
    status := .disabled, read_ptr := 0, read_complete_ptr := 0, is_full := true }

/-- C9 amended witness state. -/
def mC9w : Mrrb :=
  { buffer_length := 2, buffer := [0, 0], readers := [rC9w],
    write_ptr := 1, reservation_ptr := 1, ongoing_writes := 0 }

/-- Witness applying the amended C9 theorem at a concrete input. -/
theorem c9_enable_reseats_disabled_witness :
    (mrrb_reader_enable true mC9w 0).1 = 0 ∧
    (mrrb_reader_enable true mC9w 0).2.readers[0]? = some
      { rC9w with status := .idle, is_full := false,
                  read_ptr := mC9w.reservation_ptr,
                  read_complete_ptr := mC9w.reservation_ptr } :=
  c9_enable_reseats_disabled mC9w 0 rC9w (by decide) (by decide)

/-- A freshly initialised BLOCKING reader with user handle `h`. -/
def rdrC1 (h : Nat) : Reader :=
  { handle := some h, overrun_policy := .blocking, has_abort := false,
    status := .idle, read_ptr := 0, read_complete_ptr := 0, is_full := false }

/-- The state produced by `mrrb_init` on a 2-byte buffer with two BLOCKING
readers (handles 1 and 2). -/
def mC1 : Mrrb :=
  { buffer_length := 2, buffer := [0, 0], readers := [rdrC1 1, rdrC1 2],
    write_ptr := 0, reservation_ptr := 0, ongoing_writes := 0 }

/-- The C1 failing call sequence: fill the buffer, let reader 1 (handle 2)
complete everything, then attempt one more write while reader 0 still
holds the buffer. -/
def opsC1 : List Op :=
  [.write [10, 20], .rdComplete (some 2), .write [30]]

/-- C1 fails on the code: in the third call `mrrb_write` accepts 0 bytes
(reader 0 is BLOCKING and full), yet its full-flag loop marks the fully
caught-up IDLE reader 1 as full (`reservation_ptr == read_complete_ptr`
holds because the reservation did not move), so the publish phase
re-activates reader 1 and re-delivers the entire buffer.  Reader 1 — an
enabled BLOCKING reader — receives `[10,20,10,20]` although the sum of the
`mrrb_write` return values is 2 and the accepted writer prefix is
`[10,20]`.  The repo's own tests (`test.c`) assert that every notify
passes exactly the next unseen bytes of the reference text, so this
duplicate delivery contradicts the code's own test contract. -/
theorem c1_duplicate_delivery :
    mrrb_init [0, 0] [rdrC1 1, rdrC1 2] = some mC1 ∧
    (∀ r ∈ mC1.readers, r.overrun_policy = .blocking) ∧
    (runOps mC1 opsC1).2.2 = 2 ∧
    (∀ r ∈ (runOps mC1 opsC1).1.readers, r.status = .active) ∧
    deliveredTo 1 (runOps mC1 opsC1).2.1 = [10, 20, 10, 20] ∧
    (writerInput opsC1).take 2 = [10, 20] ∧
    deliveredTo 1 (runOps mC1 opsC1).2.1 ≠ (writerInput opsC1).take 2 := by
  decide

/-- C2 counterexample reader/state: an ordinary empty single-reader MRRB. -/
def rC2 : Reader :=
  { handle := some 1, overrun_policy := .blocking, has_abort := false,
    status := .idle, read_ptr := 0, read_complete_ptr := 0, is_full := false }

/-- C2 counterexample state. -/
def mC2 : Mrrb :=
  { buffer_length := 1, buffer := [0], readers := [rC2],
    write_ptr := 0, reservation_ptr := 0, ongoing_writes := 0 }

/-- C2 as stated is false: when the *second* lock acquisition of
`mrrb_write` (after the copy phase) fails, the function returns -1 but the
shared state is not as before the call — `ongoing_writes` is left
incremented (and the reservation remains in place). -/
theorem c2_claim_counterexample :
    (mrrb_write true true false mC2 [7]).ret = -1 ∧
    (mrrb_write true true false mC2 [7]).m.ongoing_writes = 1 ∧
    mC2.ongoing_writes = 0 ∧
    (mrrb_write true true false mC2 [7]).m ≠ mC2 := by decide

/-- C2 amended: a failure of the *initial* lock acquisition makes
`mrrb_write` return -1 with the state exactly as before; a failure of the
re-acquisition after the copy phase returns -1 but leaves `ongoing_writes`
incremented (the not-yet-published `write_ptr` is unchanged). -/
theorem c2_lock_failure_effects (m : Mrrb) (data : List Nat) (hd : data ≠ [])
    (ulk lk2 : Bool) :
    mrrb_write false ulk lk2 m data = ⟨-1, m, []⟩ ∧
    (mrrb_write true true false m data).ret = -1 ∧
    (mrrb_write true true false m data).m.ongoing_writes = m.ongoing_writes + 1 ∧
    (mrrb_write true true false m data).m.write_ptr = m.write_ptr := by
  have hlen : ¬ data.length = 0 := by simpa using hd
  refine ⟨?_, ?_, ?_, ?_⟩ <;>
    · unfold mrrb_write
      rw [if_neg hlen]
      rfl

/-- Witness applying the amended C2 theorem at a concrete input. -/
theorem c2_lock_failure_effects_witness :
    (mrrb_write false true true mC2 [7] = ⟨-1, mC2, []⟩ ∧
     (mrrb_write true true false mC2 [7]).ret = -1 ∧
     (mrrb_write true true false mC2 [7]).m.ongoing_writes = mC2.ongoing_writes + 1 ∧
     (mrrb_write true true false mC2 [7]).m.write_ptr = mC2.write_ptr) :=
  c2_lock_failure_effects mC2 [7] (by decide) true true

/-- A reader's claim-side space is at most the buffer length, given an
in-range `read_complete_ptr`. -/
lemma claimReaderSpace_le (N res : Nat) (r : Reader)
    (h : r.read_complete_ptr < N) : claimReaderSpace N res r ≤ N := by
  unfold claimReaderSpace fwdDist
  split_ifs <;> omega

/-- C8: `mrrb_get_remaining_space` is the minimum over all readers of the
claim-side per-reader space (`N` for DISABLED/DISABLING readers, 0 for a
full reader, else the forward modular distance from `reservation_ptr` to
`read_complete_ptr`, which counts `N` for coinciding offsets so that the
`is_full` flag is what disambiguates full from empty); and `mrrb_is_empty`
returns 1 exactly when this minimum equals the buffer length. -/
theorem c8_remaining_space_is_min (m : Mrrb)
    (hne : m.readers ≠ [])
    (hptr : ∀ r ∈ m.readers, r.read_complete_ptr < m.buffer_length) :
    (∀ r ∈ m.readers,
      mrrb_get_remaining_space m ≤ claimReaderSpace m.buffer_length m.reservation_ptr r) ∧
    (∃ r ∈ m.readers,
      mrrb_get_remaining_space m = claimReaderSpace m.buffer_length m.reservation_ptr r) ∧
    (mrrb_is_empty m = true ↔ mrrb_get_remaining_space m = m.buffer_length) := by
  have hfold : mrrb_get_remaining_space m =
      m.readers.foldl
        (fun acc r =>
          if mrrb_reader_get_remaining_space m.buffer_length m.reservation_ptr r < acc
          then mrrb_reader_get_remaining_space m.buffer_length m.reservation_ptr r
          else acc)
        m.buffer_length := rfl
  have hle := foldlMin_le
    (mrrb_reader_get_remaining_space m.buffer_length m.reservation_ptr)
    m.readers m.buffer_length
  have hmem := foldlMin_mem
    (mrrb_reader_get_remaining_space m.buffer_length m.reservation_ptr)
    m.readers m.buffer_length
  refine ⟨?_, ?_, ?_⟩
  · intro r hr
    rw [hfold, ← reader_space_eq_claim]
    exact hle.2 r hr
  · rcases hmem with heq | ⟨r, hr, heq⟩
    · rcases List.exists_mem_of_ne_nil m.readers hne with ⟨r, hr⟩
      refine ⟨r, hr, ?_⟩
      have h1 : mrrb_get_remaining_space m ≤
          mrrb_reader_get_remaining_space m.buffer_length m.reservation_ptr r := by
        rw [hfold]; exact hle.2 r hr
      have h2 : claimReaderSpace m.buffer_length m.reservation_ptr r
          ≤ m.buffer_length :=
        claimReaderSpace_le _ _ _ (hptr r hr)
      have h3 : mrrb_get_remaining_space m = m.buffer_length := by rw [hfold, heq]
      rw [reader_space_eq_claim] at h1
      rw [h3] at h1 ⊢
      omega
    · exact ⟨r, hr, by rw [hfold, heq, reader_space_eq_claim]⟩
  · unfold mrrb_is_empty
    exact beq_iff_eq

/-- Concrete state for the C8 witness: two readers, one holding a byte. -/
def mC8 : Mrrb :=
  { buffer_length := 4, buffer := [0, 0, 0, 0],
    readers := [{ handle := some 1, overrun_policy := .blocking, has_abort := false,
                  status := .active, read_ptr := 2, read_complete_ptr := 1,
                  is_full := false },
                { handle := some 2, overrun_policy := .blocking, has_abort := false,
                  status := .disabled, read_ptr := 0, read_complete_ptr := 0,
                  is_full := false }],
    write_ptr := 2, reservation_ptr := 2, ongoing_writes := 0 }

/-- Witness applying the C8 theorem at a concrete input. -/
theorem c8_remaining_space_is_min_witness :
    (mC8.readers ≠ [] ∧ ∀ r ∈ mC8.readers, r.read_complete_ptr < mC8.buffer_length) ∧
    ((∀ r ∈ mC8.readers,
       mrrb_get_remaining_space mC8 ≤ claimReaderSpace mC8.buffer_length mC8.reservation_ptr r) ∧
     (∃ r ∈ mC8.readers,
       mrrb_get_remaining_space mC8 = claimReaderSpace mC8.buffer_length mC8.reservation_ptr r) ∧
     (mrrb_is_empty mC8 = true ↔ mrrb_get_remaining_space mC8 = mC8.buffer_length)) :=
  ⟨⟨by decide, by decide⟩, c8_remaining_space_is_min mC8 (by decide) (by decide)⟩

/-- C4: `mrrb_read_complete` locates the reader by handle (first match in a
linear scan; a C NULL handle argument is rejected before the lookup, hence
the `h ≠ none` hypothesis) and changes nothing — no state change, no
callback — when the lookup fails or the located reader is not ACTIVE.  On
an ACTIVE reader it sets `read_complete_ptr := read_ptr`, clears `is_full`,
leaves every other reader and all global fields untouched, and then either
re-invokes the notify callback (after unlock) with the continuous readable
span while keeping the reader ACTIVE, or moves the reader to IDLE with no
callback when no bytes remain. -/
theorem c4_read_complete_behavior (m : Mrrb) (h : Option Nat) (hh : h ≠ none) :
    (mrrb_get_reader_by_handle m h = none → mrrb_read_complete true m h = (m, [])) ∧
    (∀ i r, mrrb_get_reader_by_handle m h = some i → m.readers[i]? = some r →
      (r.status ≠ .active → mrrb_read_complete true m h = (m, [])) ∧
      (r.status = .active →
        ∃ r', (mrrb_read_complete true m h).1.readers[i]? = some r' ∧
          r'.read_complete_ptr = r.read_ptr ∧
          r'.is_full = false ∧
          (∀ j, j ≠ i → (mrrb_read_complete true m h).1.readers[j]? = m.readers[j]?) ∧
          (mrrb_read_complete true m h).1.write_ptr = m.write_ptr ∧
          (mrrb_read_complete true m h).1.reservation_ptr = m.reservation_ptr ∧
          (mrrb_read_complete true m h).1.buffer = m.buffer ∧
          (mrrb_read_complete true m h).1.ongoing_writes = m.ongoing_writes ∧
          (0 < mrrb_reader_get_continuous_readable_space m.buffer_length m.write_ptr
              { r with is_full := false, read_complete_ptr := r.read_ptr } →
            r'.status = .active ∧
            (mrrb_read_complete true m h).2 =
              [Evt.notify i r.read_ptr
                (mrrb_reader_get_continuous_readable_space m.buffer_length m.write_ptr
                  { r with is_full := false, read_complete_ptr := r.read_ptr })
                ((m.buffer.drop r.read_ptr).take
                  (mrrb_reader_get_continuous_readable_space m.buffer_length m.write_ptr
                    { r with is_full := false, read_complete_ptr := r.read_ptr }))]) ∧
          (mrrb_reader_get_continuous_readable_space m.buffer_length m.write_ptr
              { r with is_full := false, read_complete_ptr := r.read_ptr } = 0 →
            r'.status = .idle ∧ (mrrb_read_complete true m h).2 = []))) := by
  constructor
  · intro hnone
    unfold mrrb_read_complete
    rw [if_neg hh, hnone]
  · intro i r hi hr
    have hlt : i < m.readers.length := (List.getElem?_eq_some.mp hr).1
    constructor
    · intro hna
      unfold mrrb_read_complete
      rw [if_neg hh, hi]
      dsimp only
      rw [hr]
      dsimp only [Bool.not_true]
      rw [if_neg (by simp)]
      rw [if_neg hna]
    · intro ha
      have hres : mrrb_read_complete true m h =
          (let r1 : Reader := { r with is_full := false, read_complete_ptr := r.read_ptr }
           let len := mrrb_reader_get_continuous_readable_space m.buffer_length
             m.write_ptr r1
           let r2 : Reader :=
             { r1 with read_ptr :=
                 mrrb_advance_pointer m.buffer_length r1.read_complete_ptr len }
           let r3 : Reader := { r1 with status := .idle }
           if 0 < len then
            ({ m with readers := m.readers.set i r2 },
             [Evt.notify i r1.read_complete_ptr len
               ((m.buffer.drop r1.read_complete_ptr).take len)])
           else
            ({ m with readers := m.readers.set i r3 }, [])) := by
        unfold mrrb_read_complete
        rw [if_neg hh, hi]
        dsimp only
        rw [hr]
        dsimp only [Bool.not_true]
        rw [if_neg (by simp), if_pos ha]
      by_cases hlen : 0 < mrrb_reader_get_continuous_readable_space m.buffer_length
          m.write_ptr { r with is_full := false, read_complete_ptr := r.read_ptr }
      · rw [hres]
        dsimp only
        rw [if_pos hlen]
        refine ⟨{ r with is_full := false, read_complete_ptr := r.read_ptr, read_ptr := mrrb_advance_pointer m.buffer_length r.read_ptr (mrrb_reader_get_continuous_readable_space m.buffer_length m.write_ptr ({ r with is_full := false, read_complete_ptr := r.read_ptr })) }, ?_, ?_, ?_, ?_, ?_, ?_, ?_, ?_, ?_, ?_⟩
        · simp [List.getElem?_set_self, hlt]
        · rfl
        · rfl
        · intro j hj
          simp [List.getElem?_set_ne, Ne.symm hj]
        · rfl
        · rfl
        · rfl
        · rfl
        · intro _
          exact ⟨ha, rfl⟩
        · intro h0
          omega
      · rw [hres]
        dsimp only
        rw [if_neg hlen]
        refine ⟨{ r with is_full := false, read_complete_ptr := r.read_ptr, status := .idle }, ?_, ?_, ?_, ?_, ?_, ?_, ?_, ?_, ?_, ?_⟩
        · simp [List.getElem?_set_self, hlt]
        · rfl
        · rfl
        · intro j hj
          simp [List.getElem?_set_ne, Ne.symm hj]
        · rfl
        · rfl
        · rfl
        · rfl
        · intro h0
          omega
        · intro _
          exact ⟨rfl, rfl⟩

/-- Concrete ACTIVE reader for the C4 witness. -/
def rC4w : Reader :=
  { handle := some 1, overrun_policy := .blocking, has_abort := false,
    status := .active, read_ptr := 2, read_complete_ptr := 0, is_full := false }

/-- Concrete state for the C4 witness (one byte still unread). -/
def mC4w : Mrrb :=
  { buffer_length := 4, buffer := [1, 2, 3, 4], readers := [rC4w],
    write_ptr := 3, reservation_ptr := 3, ongoing_writes := 0 }

/-- Witness applying the C4 theorem on the ACTIVE re-notify branch. -/
theorem c4_read_complete_behavior_witness :
    ((some 1 : Option Nat) ≠ none ∧ mrrb_get_reader_by_handle mC4w (some 1) = some 0 ∧
      mC4w.readers[0]? = some rC4w ∧ rC4w.status = .active) ∧
    ∃ r', (mrrb_read_complete true mC4w (some 1)).1.readers[0]? = some r' ∧
      r'.read_complete_ptr = rC4w.read_ptr ∧ r'.is_full = false := by
  refine ⟨⟨by decide, by decide, by decide, by decide⟩, ?_⟩
  obtain ⟨r', h1, h2, h3, -⟩ :=
    ((c4_read_complete_behavior mC4w (some 1) (by decide)).2 0 rC4w
      (by decide) (by decide)).2 (by decide)
  exact ⟨r', h1, h2, h3⟩

/-- C5: `mrrb_abort_complete` (with the reader located by handle; a C NULL
handle argument is rejected before the lookup): a DISABLING reader moves to
DISABLED with no callback and no other change; an ABORTING reader is
re-activated and re-notified (after unlock) with the continuous readable
span exactly when that span is positive and `ongoing_writes` is zero, and
otherwise moves to ABORTED with no callback; a reader in any other state,
or an unknown handle, causes no change at all. -/
theorem c5_abort_complete_behavior (m : Mrrb) (h : Option Nat) (hh : h ≠ none) :
    (mrrb_get_reader_by_handle m h = none → mrrb_abort_complete true m h = (m, [])) ∧
    (∀ i r, mrrb_get_reader_by_handle m h = some i → m.readers[i]? = some r →
      (r.status = .disabling →
        mrrb_abort_complete true m h =
          ({ m with readers := m.readers.set i ({ r with status := .disabled }) }, [])) ∧
      (r.status = .aborting →
        (0 < mrrb_reader_get_continuous_readable_space m.buffer_length m.write_ptr r ∧
            m.ongoing_writes = 0 →
          ∃ r', (mrrb_abort_complete true m h).1.readers[i]? = some r' ∧
            r'.status = .active ∧
            (mrrb_abort_complete true m h).2 =
              [Evt.notify i r.read_complete_ptr
                (mrrb_reader_get_continuous_readable_space m.buffer_length m.write_ptr r)
                ((m.buffer.drop r.read_complete_ptr).take
                  (mrrb_reader_get_continuous_readable_space m.buffer_length m.write_ptr r))]) ∧
        (¬(0 < mrrb_reader_get_continuous_readable_space m.buffer_length m.write_ptr r ∧
            m.ongoing_writes = 0) →
          mrrb_abort_complete true m h =
            ({ m with readers := m.readers.set i ({ r with status := .aborted }) }, []))) ∧
      (r.status ≠ .disabling → r.status ≠ .aborting →
        mrrb_abort_complete true m h = (m, []))) := by
  constructor
  · intro hnone
    unfold mrrb_abort_complete
    rw [if_neg hh, hnone]
  · intro i r hi hr
    have hlt : i < m.readers.length := (List.getElem?_eq_some.mp hr).1
    refine ⟨?_, ?_, ?_⟩
    · intro hd
      unfold mrrb_abort_complete
      rw [if_neg hh, hi]
      dsimp only
      rw [hr]
      dsimp only [Bool.not_true]
      rw [if_neg (by simp), if_pos hd]
    · intro hab
      have hnd : r.status ≠ .disabling := by rw [hab]; exact fun hcon => by cases hcon
      constructor
      · rintro ⟨hpos, hzero⟩
        have hres : mrrb_abort_complete true m h =
            ({ m with readers := m.readers.set i ({ r with status := .active, read_ptr := mrrb_advance_pointer m.buffer_length r.read_complete_ptr (mrrb_reader_get_continuous_readable_space m.buffer_length m.write_ptr r) }) },
             [Evt.notify i r.read_complete_ptr
               (mrrb_reader_get_continuous_readable_space m.buffer_length m.write_ptr r)
               ((m.buffer.drop r.read_complete_ptr).take
                 (mrrb_reader_get_continuous_readable_space m.buffer_length m.write_ptr r))]) := by
          unfold mrrb_abort_complete
          rw [if_neg hh, hi]
          dsimp only
          rw [hr]
          dsimp only [Bool.not_true]
          rw [if_neg (by simp), if_neg hnd, if_pos hab, if_pos ⟨hpos, hzero⟩]
        rw [hres]
        refine ⟨{ r with status := .active, read_ptr := mrrb_advance_pointer m.buffer_length r.read_complete_ptr (mrrb_reader_get_continuous_readable_space m.buffer_length m.write_ptr r) }, ?_, rfl, rfl⟩
        simp [List.getElem?_set_self, hlt]
      · intro hneg
        unfold mrrb_abort_complete
        rw [if_neg hh, hi]
        dsimp only
        rw [hr]
        dsimp only [Bool.not_true]
        rw [if_neg (by simp), if_neg hnd, if_pos hab, if_neg hneg]
    · intro h1 h2
      unfold mrrb_abort_complete
      rw [if_neg hh, hi]
      dsimp only
      rw [hr]
      dsimp only [Bool.not_true]
      rw [if_neg (by simp), if_neg h1, if_neg h2]

/-- Concrete ABORTING reader for the C5 witness. -/
def rC5w : Reader :=
  { handle := some 1, overrun_policy := .skip, has_abort := true,
    status := .aborting, read_ptr := 2, read_complete_ptr := 2, is_full := false }

/-- Concrete state for the C5 witness (one unread byte, no write in
flight). -/
def mC5w : Mrrb :=
  { buffer_length := 4, buffer := [1, 2, 3, 4], readers := [rC5w],
    write_ptr := 3, reservation_ptr := 3, ongoing_writes := 0 }

/-- Witness applying the C5 theorem on the ABORTING re-notify branch. -/
theorem c5_abort_complete_behavior_witness :
    ((some 1 : Option Nat) ≠ none ∧ mrrb_get_reader_by_handle mC5w (some 1) = some 0 ∧
      mC5w.readers[0]? = some rC5w ∧ rC5w.status = .aborting ∧
      0 < mrrb_reader_get_continuous_readable_space mC5w.buffer_length mC5w.write_ptr rC5w ∧
      mC5w.ongoing_writes = 0) ∧
    ∃ r', (mrrb_abort_complete true mC5w (some 1)).1.readers[0]? = some r' ∧
      r'.status = .active := by
  refine ⟨⟨by decide, by decide, by decide, by decide, by decide, by decide⟩, ?_⟩
  obtain ⟨r', h1, h2, -⟩ :=
    (((c5_abort_complete_behavior mC5w (some 1) (by decide)).2 0 rC5w
      (by decide) (by decide)).2.1 (by decide)).1 ⟨by decide, by decide⟩
  exact ⟨r', h1, h2⟩

/-- A non-disabled, non-full reader's remaining space is the forward
distance from the reservation offset to its complete cursor. -/
lemma reader_space_not_full (N res : Nat) (r : Reader)
    (h1 : ¬(r.status = .disabled ∨ r.status = .disabling)) (h2 : r.is_full = false) :
    mrrb_reader_get_remaining_space N res r = fwdDist N res r.read_complete_ptr := by
  unfold mrrb_reader_get_remaining_space fwdDist
  rw [if_neg h1, h2]
  simp only [Bool.false_eq_true, if_false]
  split_ifs <;> omega

/-- A non-disabled full reader's remaining space is zero. -/
lemma reader_space_full (N res : Nat) (r : Reader)
    (h1 : ¬(r.status = .disabled ∨ r.status = .disabling)) (h2 : r.is_full = true) :
    mrrb_reader_get_remaining_space N res r = 0 := by
  unfold mrrb_reader_get_remaining_space
  rw [if_neg h1, h2]
  simp

/-- Core of C3: what one `_mrrb_clear_overrun_space` iteration does to a
SKIP reader whose remaining space is below the requested space, on states
satisfying the sequential invariants (in-range offsets; `is_full` only
with the complete cursor on the reservation; an IDLE reader is caught up).
An ACTIVE reader moves to ABORTING with its abort flagged; any reader ends
with forward distance at least `requested` and with `is_full` set iff that
distance equals `requested`; for an ACTIVE reader the final complete
cursor is its `read_ptr` advanced by the remaining deficit. -/
lemma clear_reader_skip_spec (N res requested : Nat) (r : Reader)
    (hpol : r.overrun_policy = .skip)
    (hresN : res < N) (hrcp : r.read_complete_ptr < N) (hrp : r.read_ptr < N)
    (hreq : requested ≤ N)
    (hfull : r.is_full = true → r.read_complete_ptr = res)
    (hidle : r.status = .idle → r.read_complete_ptr = res ∧ r.is_full = false)
    (hspace : mrrb_reader_get_remaining_space N res r < requested) :
    (r.status = .active → (mrrb_clear_reader N res requested r).1.status = .aborting ∧
        (mrrb_clear_reader N res requested r).2.1 = true) ∧
    (r.status ≠ .active → (mrrb_clear_reader N res requested r).1.status = r.status ∧
        (mrrb_clear_reader N res requested r).2.1 = false) ∧
    requested ≤ fwdDist N res (mrrb_clear_reader N res requested r).1.read_complete_ptr ∧
    ((mrrb_clear_reader N res requested r).1.is_full = true ↔
      fwdDist N res (mrrb_clear_reader N res requested r).1.read_complete_ptr = requested) ∧
    (r.status = .active →
      (mrrb_clear_reader N res requested r).1.read_complete_ptr =
        (if fwdDist N res r.read_ptr < requested
         then mrrb_advance_pointer N r.read_ptr (requested - fwdDist N res r.read_ptr)
         else r.read_ptr)) := by
  obtain ⟨hdl, pol, habo, st, rp, rcp, fl⟩ := r
  dsimp only at hpol hrcp hrp hfull hidle hspace ⊢
  subst hpol
  cases st with
  | disabled => simp [mrrb_reader_get_remaining_space] at hspace; omega
  | disabling => simp [mrrb_reader_get_remaining_space] at hspace; omega
  | idle =>
    obtain ⟨he, hf⟩ := hidle rfl
    subst he
    subst hf
    simp [mrrb_reader_get_remaining_space] at hspace
    omega
  | active =>
    have hsp1 : mrrb_reader_get_remaining_space N res
        ⟨hdl, .skip, habo, .aborting, rp, rp, false⟩ = fwdDist N res rp := by
      rw [reader_space_not_full] <;> simp
    have hR : mrrb_clear_reader N res requested ⟨hdl, .skip, habo, .active, rp, rcp, fl⟩ =
        (if fwdDist N res rp < requested then
          (⟨hdl, .skip, habo, .aborting, rp, mrrb_advance_pointer N rp (requested - fwdDist N res rp), true⟩, true, requested)
         else
          (⟨hdl, .skip, habo, .aborting, rp, rp, fwdDist N res rp == requested⟩, true, fwdDist N res rp)) := by
      unfold mrrb_clear_reader
      rw [if_neg (by simp), if_pos hspace]
      dsimp only
      rw [if_pos (show ReaderStatus.active = ReaderStatus.active from rfl)]
      rw [hsp1]
      by_cases hc : fwdDist N res rp < requested
      · simp only [if_pos hc, beq_self_eq_true, decide_True]
      · simp only [if_neg hc, decide_True]
    rw [hR]
    by_cases hc : fwdDist N res rp < requested
    · rw [if_pos hc]
      have hd0 : 0 < fwdDist N res rp := by unfold fwdDist; split_ifs <;> omega
      have hadv : fwdDist N res (mrrb_advance_pointer N rp (requested - fwdDist N res rp)) =
          requested := by
        rw [fwdDist_advance N res rp _ hresN hrp (by omega) (by omega)]
        omega
      refine ⟨fun _ => ⟨rfl, rfl⟩, fun hna => absurd rfl hna, ?_, ?_, fun _ => by rw [if_pos hc]⟩
      · rw [hadv]
      · rw [hadv]
        exact ⟨fun _ => rfl, fun _ => rfl⟩
    · rw [if_neg hc]
      refine ⟨fun _ => ⟨rfl, rfl⟩, fun hna => absurd rfl hna, ?_, ?_, fun _ => by rw [if_neg hc]⟩
      · exact Nat.le_of_not_lt hc
      · constructor
        · intro hbe
          exact beq_iff_eq.mp hbe
        · intro he
          exact beq_iff_eq.mpr he
  | aborting =>
    cases fl with
    | true =>
      have he : rcp = res := hfull rfl
      have hsp0 : mrrb_reader_get_remaining_space N res
          ⟨hdl, .skip, habo, .aborting, rp, rcp, true⟩ = 0 := by
        rw [reader_space_full] <;> simp
      have h0 : 0 < requested := by omega
      have hR : mrrb_clear_reader N res requested ⟨hdl, .skip, habo, .aborting, rp, rcp, true⟩ =
          (⟨hdl, .skip, habo, .aborting, rp, mrrb_advance_pointer N rcp requested, true⟩, false, requested) := by
        unfold mrrb_clear_reader
        rw [if_neg (by simp), if_pos hspace]
        dsimp only
        rw [if_neg (show ¬(ReaderStatus.aborting = ReaderStatus.active) from by simp)]
        rw [hsp0, if_pos h0]
        simp only [Nat.sub_zero, beq_self_eq_true]
        rfl
      have hadv : fwdDist N res (mrrb_advance_pointer N rcp requested) = requested := by
        rw [he]
        exact fwdDist_advance_from_res N res requested hresN h0 hreq
      rw [hR]
      refine ⟨?_, ?_, ?_, ?_, ?_⟩
      · intro hcon
        cases hcon
      · intro _
        exact ⟨rfl, rfl⟩
      · rw [hadv]
      · rw [hadv]
        exact ⟨fun _ => rfl, fun _ => rfl⟩
      · intro hcon
        cases hcon
    | false =>
      have hsp0 : mrrb_reader_get_remaining_space N res
          ⟨hdl, .skip, habo, .aborting, rp, rcp, false⟩ = fwdDist N res rcp := by
        rw [reader_space_not_full] <;> simp
      have hlt0 : fwdDist N res rcp < requested := by rw [← hsp0]; exact hspace
      have hR : mrrb_clear_reader N res requested ⟨hdl, .skip, habo, .aborting, rp, rcp, false⟩ =
          (⟨hdl, .skip, habo, .aborting, rp, mrrb_advance_pointer N rcp (requested - fwdDist N res rcp), true⟩, false, requested) := by
        unfold mrrb_clear_reader
        rw [if_neg (by simp), if_pos hspace]
        dsimp only
        rw [if_neg (show ¬(ReaderStatus.aborting = ReaderStatus.active) from by simp)]
        rw [hsp0, if_pos hlt0]
        simp only [beq_self_eq_true]
        rfl
      have hd0 : 0 < fwdDist N res rcp := by unfold fwdDist; split_ifs <;> omega
      have hadv : fwdDist N res
          (mrrb_advance_pointer N rcp (requested - fwdDist N res rcp)) = requested := by
        rw [fwdDist_advance N res rcp _ hresN hrcp (by omega) (by omega)]
        omega
      rw [hR]
      refine ⟨?_, ?_, ?_, ?_, ?_⟩
      · intro hcon
        cases hcon
      · intro _
        exact ⟨rfl, rfl⟩
      · rw [hadv]
      · rw [hadv]
        exact ⟨fun _ => rfl, fun _ => rfl⟩
      · intro hcon
        cases hcon
  | aborted =>
    cases fl with
    | true =>
      have he : rcp = res := hfull rfl
      have hsp0 : mrrb_reader_get_remaining_space N res
          ⟨hdl, .skip, habo, .aborted, rp, rcp, true⟩ = 0 := by
        rw [reader_space_full] <;> simp
      have h0 : 0 < requested := by omega
      have hR : mrrb_clear_reader N res requested ⟨hdl, .skip, habo, .aborted, rp, rcp, true⟩ =
          (⟨hdl, .skip, habo, .aborted, rp, mrrb_advance_pointer N rcp requested, true⟩, false, requested) := by
        unfold mrrb_clear_reader
        rw [if_neg (by simp), if_pos hspace]
        dsimp only
        rw [if_neg (show ¬(ReaderStatus.aborted = ReaderStatus.active) from by simp)]
        rw [hsp0, if_pos h0]
        simp only [Nat.sub_zero, beq_self_eq_true]
        rfl
      have hadv : fwdDist N res (mrrb_advance_pointer N rcp requested) = requested := by
        rw [he]
        exact fwdDist_advance_from_res N res requested hresN h0 hreq
      rw [hR]
      refine ⟨?_, ?_, ?_, ?_, ?_⟩
      · intro hcon
        cases hcon
      · intro _
        exact ⟨rfl, rfl⟩
      · rw [hadv]
      · rw [hadv]
        exact ⟨fun _ => rfl, fun _ => rfl⟩
      · intro hcon
        cases hcon
    | false =>
      have hsp0 : mrrb_reader_get_remaining_space N res
          ⟨hdl, .skip, habo, .aborted, rp, rcp, false⟩ = fwdDist N res rcp := by
        rw [reader_space_not_full] <;> simp
      have hlt0 : fwdDist N res rcp < requested := by rw [← hsp0]; exact hspace
      have hR : mrrb_clear_reader N res requested ⟨hdl, .skip, habo, .aborted, rp, rcp, false⟩ =
          (⟨hdl, .skip, habo, .aborted, rp, mrrb_advance_pointer N rcp (requested - fwdDist N res rcp), true⟩, false, requested) := by
        unfold mrrb_clear_reader
        rw [if_neg (by simp), if_pos hspace]
        dsimp only
        rw [if_neg (show ¬(ReaderStatus.aborted = ReaderStatus.active) from by simp)]
        rw [hsp0, if_pos hlt0]
        simp only [beq_self_eq_true]
        rfl
      have hd0 : 0 < fwdDist N res rcp := by unfold fwdDist; split_ifs <;> omega
      have hadv : fwdDist N res
          (mrrb_advance_pointer N rcp (requested - fwdDist N res rcp)) = requested := by
        rw [fwdDist_advance N res rcp _ hresN hrcp (by omega) (by omega)]
        omega
      rw [hR]
      refine ⟨?_, ?_, ?_, ?_, ?_⟩
      · intro hcon
        cases hcon
      · intro _
        exact ⟨rfl, rfl⟩
      · rw [hadv]
      · rw [hadv]
        exact ⟨fun _ => rfl, fun _ => rfl⟩
      · intro hcon
        cases hcon

/-- C3: during overrun clearing, every SKIP reader with remaining space
below `requested = min(data_length, N)` is handled as the claim states
(under the sequential invariants: in-range offsets, `is_full` only with
the cursor on the reservation, IDLE readers caught up): if ACTIVE it moves
to ABORTING, its completion cursor is reset to `read_ptr`, its `is_full`
cleared and its abort callback flagged (the flag entry is returned and the
write path invokes the abort after unlock); then its completion cursor is
advanced by the deficit so the forward distance from `reservation_ptr`
reaches at least `requested`, with `is_full` set iff that distance equals
`requested`. -/
theorem c3_skip_overrun_clearing (m : Mrrb) (dlen i : Nat) (r : Reader)
    (hr : m.readers[i]? = some r)
    (hpol : r.overrun_policy = .skip)
    (hresN : m.reservation_ptr < m.buffer_length)
    (hrcp : r.read_complete_ptr < m.buffer_length)
    (hrp : r.read_ptr < m.buffer_length)
    (hfull : r.is_full = true → r.read_complete_ptr = m.reservation_ptr)
    (hidle : r.status = .idle → r.read_complete_ptr = m.reservation_ptr ∧ r.is_full = false)
    (hspace : mrrb_reader_get_remaining_space m.buffer_length m.reservation_ptr r <
      min dlen m.buffer_length) :
    ∃ r', (mrrb_clear_overrun_space m (min dlen m.buffer_length)).2.1[i]? = some r' ∧
      (mrrb_clear_overrun_space m (min dlen m.buffer_length)).2.2[i]? =
        some (decide (r.status = .active)) ∧
      (r.status = .active → r'.status = .aborting) ∧
      (r.status ≠ .active → r'.status = r.status) ∧
      min dlen m.buffer_length ≤ fwdDist m.buffer_length m.reservation_ptr r'.read_complete_ptr ∧
      (r'.is_full = true ↔
        fwdDist m.buffer_length m.reservation_ptr r'.read_complete_ptr = min dlen m.buffer_length) ∧
      (r.status = .active →
        r'.read_complete_ptr =
          (if fwdDist m.buffer_length m.reservation_ptr r.read_ptr < min dlen m.buffer_length
           then mrrb_advance_pointer m.buffer_length r.read_ptr
             (min dlen m.buffer_length - fwdDist m.buffer_length m.reservation_ptr r.read_ptr)
           else r.read_ptr)) := by
  have hacc1 : (mrrb_clear_overrun_space m (min dlen m.buffer_length)).2.1[i]? =
      some (mrrb_clear_reader m.buffer_length m.reservation_ptr (min dlen m.buffer_length) r).1 := by
    unfold mrrb_clear_overrun_space
    simp [List.getElem?_map, hr]
  have hacc2 : (mrrb_clear_overrun_space m (min dlen m.buffer_length)).2.2[i]? =
      some (mrrb_clear_reader m.buffer_length m.reservation_ptr (min dlen m.buffer_length) r).2.1 := by
    unfold mrrb_clear_overrun_space
    simp [List.getElem?_map, hr]
  have hcore := clear_reader_skip_spec m.buffer_length m.reservation_ptr
    (min dlen m.buffer_length) r hpol hresN hrcp hrp (Nat.min_le_right _ _) hfull hidle hspace
  refine ⟨(mrrb_clear_reader m.buffer_length m.reservation_ptr (min dlen m.buffer_length) r).1,
    hacc1, ?_, fun hact => (hcore.1 hact).1, fun hna => (hcore.2.1 hna).1,
    hcore.2.2.1, hcore.2.2.2.1, hcore.2.2.2.2⟩
  rw [hacc2]
  by_cases hact : r.status = .active
  · rw [(hcore.1 hact).2, hact]
    simp
  · rw [(hcore.2.1 hact).2]
    simp [hact]

/-- Concrete SKIP reader for the C3 witness: ACTIVE with one byte of
space while three are requested. -/
def rC3w : Reader :=
  { handle := some 1, overrun_policy := .skip, has_abort := true,
    status := .active, read_ptr := 3, read_complete_ptr := 3, is_full := false }

/-- Concrete state for the C3 witness. -/
def mC3w : Mrrb :=
  { buffer_length := 4, buffer := [0, 0, 0, 0], readers := [rC3w],
    write_ptr := 2, reservation_ptr := 2, ongoing_writes := 0 }

/-- Witness applying the C3 theorem at a concrete overrun. -/
theorem c3_skip_overrun_clearing_witness :
    (rC3w.overrun_policy = .skip ∧ mC3w.readers[0]? = some rC3w ∧
      mrrb_reader_get_remaining_space mC3w.buffer_length mC3w.reservation_ptr rC3w <
        min 3 mC3w.buffer_length) ∧
    ∃ r', (mrrb_clear_overrun_space mC3w (min 3 mC3w.buffer_length)).2.1[0]? = some r' ∧
      (rC3w.status = .active → r'.status = .aborting) := by
  refine ⟨⟨by decide, by decide, by decide⟩, ?_⟩
  obtain ⟨r', h1, h2, h3, -⟩ := c3_skip_overrun_clearing mC3w 3 0 rC3w (by decide) (by decide)
    (by decide) (by decide) (by decide) (by decide) (by decide) (by decide)
  exact ⟨r', h1, h3⟩

/-- The abort-callback events of `mrrb_write` contain no notify event. -/
lemma notify_not_mem_abortEvts (flags : List Bool) (n i off len : Nat) (bs : List Nat) :
    Evt.notify i off len bs ∉
      (List.range n).filterMap
        (fun j => if flags.getD j false then some (Evt.abort j) else none) := by
  intro hmem
  rcases List.mem_filterMap.mp hmem with ⟨j, -, hj⟩
  split at hj
  · cases hj
  · cases hj

/-- Overrun clearing keeps the complete cursor inside the buffer. -/
lemma clear_reader_rcp_lt (N res q : Nat) (r : Reader)
    (h1 : r.read_complete_ptr < N) (h2 : r.read_ptr < N) :
    (mrrb_clear_reader N res q r).1.read_complete_ptr < N := by
  unfold mrrb_clear_reader
  dsimp only
  split
  · exact h1
  · split
    · split
      · exact h1
      · split
        · exact h1
        · exact h1
      · dsimp only
        split <;> dsimp only <;> (try split) <;>
          first
            | exact mrrb_advance_pointer_lt _ _ _ h2
            | exact mrrb_advance_pointer_lt _ _ _ h1
            | exact h2
    · exact h1

/-- Overrun clearing leaves a reader IDLE only when it was skipped: an
IDLE result means the reader is returned unchanged and was IDLE before. -/
lemma clear_reader_idle (N res q : Nat) (r : Reader)
    (h : (mrrb_clear_reader N res q r).1.status = .idle) :
    (mrrb_clear_reader N res q r).1 = r ∧ r.status = .idle := by
  unfold mrrb_clear_reader at h ⊢
  dsimp only at h ⊢
  by_cases hsk : r.status = .disabled ∨ r.status = .disabling ∨ r.status = .idle
  · rw [if_pos hsk] at h ⊢
    exact ⟨rfl, h⟩
  · rw [if_neg hsk] at h ⊢
    by_cases hlt : mrrb_reader_get_remaining_space N res r < q
    · rw [if_pos hlt] at h ⊢
      cases hp : r.overrun_policy
      all_goals try rw [hp] at h
      all_goals dsimp only at h ⊢
      · by_cases hab : r.has_abort
        · rw [if_pos hab] at h ⊢
          cases h
        · rw [if_neg hab] at h ⊢
          cases h
      · exact absurd h (fun hc => hsk (Or.inr (Or.inr hc)))
      · by_cases hact : r.status = .active
        · rw [if_pos hact] at h
          dsimp only at h
          by_cases hsp : mrrb_reader_get_remaining_space N res
              ({ r with overrun_policy := .skip, status := .aborting, read_complete_ptr := r.read_ptr, is_full := false } : Reader) < q
          · rw [if_pos hsp] at h
            cases h
          · rw [if_neg hsp] at h
            cases h
        · rw [if_neg hact] at h
          rw [if_pos hlt] at h
          exact absurd h (fun hc => hsk (Or.inr (Or.inr hc)))
    · rw [if_neg hlt] at h ⊢
      exact absurd h (fun hc => hsk (Or.inr (Or.inr hc)))

/-- The full-flag loop of `mrrb_write` keeps status and cursors, and gives
every non-DISABLED/DISABLING reader `is_full = (reservation == complete)`. -/
lemma writeFullFlags_mem (res1 : Nat) (readers : List Reader) (r2 : Reader)
    (h : r2 ∈ writeFullFlags res1 readers) :
    ∃ r0 ∈ readers, r2.status = r0.status ∧ r2.read_complete_ptr = r0.read_complete_ptr ∧
      (¬(r0.status = .disabled ∨ r0.status = .disabling) →
        r2.is_full = (res1 == r0.read_complete_ptr)) := by
  unfold writeFullFlags at h
  rcases List.mem_map.mp h with ⟨r0, hr0, rfl⟩
  by_cases hd : r0.status = .disabled ∨ r0.status = .disabling
  · rw [if_pos hd]
    exact ⟨r0, hr0, rfl, rfl, fun hc => absurd hd hc⟩
  · rw [if_neg hd]
    exact ⟨r0, hr0, rfl, rfl, fun _ => rfl⟩

/-- Any notify event emitted by the publish/notify phase of `mrrb_write`
for one reader carries a length of at least one byte, given the facts the
write path establishes before publishing: the pre-publish `write_ptr` is
in range, the reader's complete cursor is in range, a non-disabled
reader's `is_full` records whether the new reservation sits on its
complete cursor, and an IDLE reader is seated on the old `write_ptr`. -/
lemma write_notify_len_pos (N wp res1 : Nat) (buf : List Nat) (i : Nat) (r2 : Reader)
    (hwp : wp < N) (hrcp : r2.read_complete_ptr < N)
    (hfull : ¬(r2.status = .disabled ∨ r2.status = .disabling) →
      r2.is_full = (res1 == r2.read_complete_ptr))
    (hidle : r2.status = .idle → r2.read_complete_ptr = wp) :
    ∀ j off len bs, Evt.notify j off len bs ∈
      (writeNotifyReader N res1 buf i (writePublishReader wp r2)).2 → 1 ≤ len := by
  intro j off len bs hmem
  unfold writePublishReader at hmem
  by_cases hid : r2.status = .idle
  · rw [if_pos hid] at hmem
    have hf : r2.is_full = (res1 == r2.read_complete_ptr) :=
      hfull (by rw [hid]; rintro (hc | hc) <;> cases hc)
    unfold writeNotifyReader at hmem
    rw [if_pos rfl] at hmem
    dsimp only at hmem
    rcases List.mem_singleton.mp hmem with ⟨⟩
    unfold mrrb_reader_get_continuous_readable_space
    dsimp only
    rw [hf, hidle hid]
    by_cases he : res1 = wp
    · rw [he]
      rw [if_pos (Or.inr (by simp))]
      omega
    · have hb : (res1 == wp) = false := by
        rw [beq_eq_false_iff_ne]
        exact he
      rw [hb]
      split
      · omega
      · next hneg =>
        have h1 : ¬ wp > res1 := fun hc => hneg (Or.inl hc)
        omega
  · rw [if_neg hid] at hmem
    by_cases hab : r2.status = .aborted
    · rw [if_pos hab] at hmem
      have hf : r2.is_full = (res1 == r2.read_complete_ptr) :=
        hfull (by rw [hab]; rintro (hc | hc) <;> cases hc)
      unfold writeNotifyReader at hmem
      rw [if_pos rfl] at hmem
      dsimp only at hmem
      rcases List.mem_singleton.mp hmem with ⟨⟩
      unfold mrrb_reader_get_continuous_readable_space
      dsimp only
      rw [hf]
      by_cases he : res1 = r2.read_complete_ptr
      · rw [he]
        rw [if_pos (Or.inr (by simp))]
        omega
      · have hb : (res1 == r2.read_complete_ptr) = false := by
          rw [beq_eq_false_iff_ne]
          exact he
        rw [hb]
        split
        · omega
        · next hneg =>
          have h1 : ¬ r2.read_complete_ptr > res1 := fun hc => hneg (Or.inl hc)
          omega
    · rw [if_neg hab] at hmem
      unfold writeNotifyReader at hmem
      rw [if_neg (by simp)] at hmem
      cases hmem

set_option maxHeartbeats 2000000 in
/-- C6: every notify callback invocation — from `mrrb_write`'s publish
phase, from `mrrb_read_complete`'s re-notify, or from
`mrrb_abort_complete`'s re-notify — passes a data length of at least one
byte.  For the write path this holds under the sequential state
invariants (in-range `write_ptr` and reader cursors, and IDLE readers
seated on `write_ptr`), which hold in every state reachable by top-level
calls; the two re-notify paths need no hypotheses because they are
guarded by a positivity test. -/
theorem c6_notify_length_positive (m : Mrrb) :
    (∀ data lk1 ulk1 lk2,
      m.write_ptr < m.buffer_length →
      (∀ r ∈ m.readers, r.read_complete_ptr < m.buffer_length) →
      (∀ r ∈ m.readers, r.read_ptr < m.buffer_length) →
      (∀ r ∈ m.readers, r.status = .idle → r.read_complete_ptr = m.write_ptr) →
      ∀ j off len bs, Evt.notify j off len bs ∈ (mrrb_write lk1 ulk1 lk2 m data).evts →
        1 ≤ len) ∧
    (∀ lk h j off len bs, Evt.notify j off len bs ∈ (mrrb_read_complete lk m h).2 →
      1 ≤ len) ∧
    (∀ lk h j off len bs, Evt.notify j off len bs ∈ (mrrb_abort_complete lk m h).2 →
      1 ≤ len) := by
  refine ⟨?_, ?_, ?_⟩
  · intro data lk1 ulk1 lk2 H1 H3 H4 H5 j off len bs hmem
    unfold mrrb_write at hmem
    split at hmem
    · cases hmem
    · split at hmem
      · cases hmem
      · dsimp only at hmem
        split at hmem
        · cases hmem
        · split at hmem
          · exact absurd hmem (notify_not_mem_abortEvts _ _ _ _ _ _)
          · split at hmem
            · rcases List.mem_append.mp hmem with hA | hB
              · exact absurd hA (notify_not_mem_abortEvts _ _ _ _ _ _)
              · rcases List.mem_flatten.mp hB with ⟨l, hl, hel⟩
                rcases List.mem_map.mp hl with ⟨x, hx, rfl⟩
                rcases List.mem_map.mp hx with ⟨p, hp, rfl⟩
                have hp2 := List.getElem?_mem (List.mem_enum_iff_getElem?.mp hp)
                rcases List.mem_map.mp hp2 with ⟨r2, hr2, hpub⟩
                rw [← hpub] at hel
                rcases writeFullFlags_mem _ _ _ hr2 with ⟨r0, hr0, hst, hcp, hfl⟩
                have hfacts : r0.read_complete_ptr < m.buffer_length ∧
                    (r0.status = .idle → r0.read_complete_ptr = m.write_ptr) := by
                  split at hr0
                  · exact ⟨H3 r0 hr0, H5 r0 hr0⟩
                  · split at hr0
                    · unfold mrrb_clear_overrun_space at hr0
                      dsimp only at hr0
                      rcases List.mem_map.mp hr0 with ⟨sr, hsr, rfl⟩
                      rcases List.mem_map.mp hsr with ⟨rr, hrr, rfl⟩
                      refine ⟨clear_reader_rcp_lt _ _ _ _ (H3 rr hrr) (H4 rr hrr), ?_⟩
                      intro hidle0
                      rcases clear_reader_idle _ _ _ _ hidle0 with ⟨heq, hidle1⟩
                      rw [heq]
                      exact H5 rr hrr hidle1
                    · exact ⟨H3 r0 hr0, H5 r0 hr0⟩
                refine write_notify_len_pos m.buffer_length m.write_ptr _ _ p.1 r2 H1 ?_ ?_ ?_
                  j off len bs hel
                · rw [hcp]
                  exact hfacts.1
                · intro hnd
                  rw [hfl (by rw [← hst]; exact hnd), hcp]
                · intro hid
                  rw [hcp]
                  exact hfacts.2 (by rw [← hst]; exact hid)
            · exact absurd hmem (notify_not_mem_abortEvts _ _ _ _ _ _)
  · intro lk h j off len bs hmem
    unfold mrrb_read_complete at hmem
    split at hmem
    · cases hmem
    · split at hmem
      · cases hmem
      · split at hmem
        · cases hmem
        · split at hmem
          · cases hmem
          · split at hmem
            · dsimp only at hmem
              split at hmem
              · rcases List.mem_singleton.mp hmem with ⟨⟩
                omega
              · cases hmem
            · cases hmem
  · intro lk h j off len bs hmem
    unfold mrrb_abort_complete at hmem
    split at hmem
    · cases hmem
    · split at hmem
      · cases hmem
      · split at hmem
        · cases hmem
        · split at hmem
          · cases hmem
          · split at hmem
            · cases hmem
            · split at hmem
              · dsimp only at hmem
                split at hmem
                · rcases List.mem_singleton.mp hmem with ⟨⟩
                  omega
                · cases hmem
              · cases hmem

/-- Witness applying the C6 theorem at a concrete freshly initialised
state and write call. -/
theorem c6_notify_length_positive_witness :
    (mC1.write_ptr < mC1.buffer_length ∧
     (∀ r ∈ mC1.readers, r.read_complete_ptr < mC1.buffer_length) ∧
     (∀ r ∈ mC1.readers, r.read_ptr < mC1.buffer_length) ∧
     (∀ r ∈ mC1.readers, r.status = .idle → r.read_complete_ptr = mC1.write_ptr)) ∧
    (∀ j off len bs, Evt.notify j off len bs ∈ (mrrb_write true true true mC1 [10, 20]).evts →
      1 ≤ len) := by
  refine ⟨⟨by decide, by decide, by decide, by decide⟩, ?_⟩
  exact fun j off len bs hm =>
    (c6_notify_length_positive mC1).1 [10, 20] true true true (by decide) (by decide)
      (by decide) (by decide) j off len bs hm
